import Mathlib

set_option maxRecDepth 4000

namespace RLox

/-- Token kinds of the language (token.rs, enum `TokenKind`). Rust identifiers
that clash with Lean keywords carry a `Kw` suffix. -/
inductive TokenKind where
  | leftParen | rightParen | leftBrace | rightBrace
  | comma | dot | minus | plus | semicolon | slash | star
  | bang | bangEqual | equal | equalEqual
  | greater | greaterEqual | less | lessEqual
  | identifier | string | number
  | andKw | classKw | elseKw | falseKw | funKw | forKw | ifKw | nilKw
  | orKw | printKw | returnKw | superKw | thisKw | trueKw | varKw | whileKw
  | eof
deriving DecidableEq, Repr

/-- The language's value type (expr.rs, enum `Literal`). The number payload is
kept abstract in the type parameter `F`, standing for the host's `f64`; the
concrete development instantiates `F := Int`. `LiteralBool` (a two-constructor
enum in the source) is modelled by `Bool`. -/
inductive Literal (F : Type) where
  | number (n : F)
  | str (s : String)
  | boolean (b : Bool)
  | ident (s : String)
  | none
deriving DecidableEq, Repr

/-- A scanned token (token.rs, struct `Token`): kind, exact source slice,
optional literal payload and source line. -/
structure Token (F : Type) where
  kind : TokenKind
  lexeme : String
  literal : Literal F
  line : Nat
deriving DecidableEq, Repr

/-- Expression AST (expr.rs, enum `Expr`). `Variable` is renamed `var`
(`variable` is a Lean keyword). -/
inductive Expr (F : Type) where
  | literal (value : Literal F)
  | grouping (expression : Expr F)
  | unary (operator : Token F) (right : Expr F)
  | binary (left : Expr F) (operator : Token F) (right : Expr F)
  | var (name : Token F)
  | assign (name : Token F) (value : Expr F)
  | logical (left : Expr F) (operator : Token F) (right : Expr F)
deriving DecidableEq, Repr

/-- Statement AST (stmt.rs, enum `Stmt`). `If`/`While` carry an `S` suffix to
avoid Lean keywords. -/
inductive Stmt (F : Type) where
  | expr (e : Expr F)
  | ifS (condition : Expr F) (thenBranch : Stmt F) (elseBranch : Option (Stmt F))
  | print (e : Expr F)
  | var (name : Token F) (initializer : Expr F)
  | whileS (condition : Expr F) (body : Stmt F)
  | block (stmts : List (Stmt F))
deriving Repr

/-- Runtime error (error.rs, struct `RuntimeError`). -/
structure RuntimeError (F : Type) where
  message : String
  token : Option (Token F)
deriving DecidableEq, Repr

/-- One lexical scope: a name-to-value table (models `HashMap<String, Literal>`;
insertion order is irrelevant, lookup is by key). -/
abbrev Scope (F : Type) := List (String × Literal F)

/-- Lookup in one scope (`HashMap::get`). -/
def scopeGet {F : Type} : Scope F → String → Option (Literal F)
  | [], _ => Option.none
  | (k, v) :: rest, name => if k = name then some v else scopeGet rest name

/-- Insert-or-replace in one scope (`HashMap::insert`). -/
def scopeInsert {F : Type} : Scope F → String → Literal F → Scope F
  | [], name, value => [(name, value)]
  | (k, v) :: rest, name, value =>
    if k = name then (name, value) :: rest else (k, v) :: scopeInsert rest name value

/-- Models `HashMap::contains_key`. -/
def scopeContains {F : Type} (s : Scope F) (name : String) : Bool :=
  (scopeGet s name).isSome

/-- The interpreter environment (environment.rs, struct `Environment`): a stack
of scopes. The Rust `Vec` pushes at the back and iterates `.rev()` from the
back; here the head of the list is the innermost (most recently pushed) scope,
so iteration in list order is innermost-to-outermost. -/
structure Environment (F : Type) where
  scopes : List (Scope F)
deriving DecidableEq, Repr

/-- Models `Environment::new`: a single empty (global) scope. -/
def Environment.new {F : Type} : Environment F := ⟨[[]]⟩

/-- Models `Environment::add_scope`: push a fresh innermost scope. -/
def Environment.addScope {F : Type} (env : Environment F) : Environment F :=
  ⟨[] :: env.scopes⟩

/-- Models `Environment::pop_scope`: removes the innermost scope. The Rust code
unwraps (`self.scopes.pop().unwrap()`), panicking when the stack is empty;
that panic is modelled by the `Option.none` result. -/
def Environment.popScope {F : Type} (env : Environment F) : Option (Environment F) :=
  match env.scopes with
  | [] => Option.none
  | _ :: rest => some ⟨rest⟩

/-- Models `Environment::define`: insert into the innermost scope
(`self.scopes.last_mut().unwrap().insert(name, value)`); the unwrap-panic on an
empty stack is modelled by `Option.none`. -/
def Environment.define {F : Type} (env : Environment F) (name : String) (value : Literal F) :
    Option (Environment F) :=
  match env.scopes with
  | [] => Option.none
  | s :: rest => some ⟨scopeInsert s name value :: rest⟩

/-- The "Undefined variable" runtime error raised by `get` and `assign`. -/
def undefinedVarErr {F : Type} (name : Token F) : RuntimeError F :=
  ⟨"Undefined variable \x27" ++ name.lexeme ++ "\x27", some name⟩

/-- Search the scope stack innermost-to-outermost (`Environment::get` loop). -/
def scopesGet {F : Type} : List (Scope F) → String → Option (Literal F)
  | [], _ => Option.none
  | s :: rest, name =>
    match scopeGet s name with
    | some v => some v
    | Option.none => scopesGet rest name

/-- Models `Environment::get`. -/
def Environment.get {F : Type} (env : Environment F) (name : Token F) :
    Except (RuntimeError F) (Literal F) :=
  match scopesGet env.scopes name.lexeme with
  | some v => .ok v
  | Option.none => .error (undefinedVarErr name)

/-- Assign to the first scope (innermost-to-outermost) containing the name
(`Environment::assign` loop); `Option.none` means no scope contains it. -/
def scopesAssign {F : Type} : List (Scope F) → String → Literal F → Option (List (Scope F))
  | [], _, _ => Option.none
  | s :: rest, name, value =>
    if scopeContains s name then some (scopeInsert s name value :: rest)
    else (scopesAssign rest name value).map (s :: ·)

/-- Models `Environment::assign`: mutates the nearest scope containing the name and
never creates a new binding. -/
def Environment.assign {F : Type} (env : Environment F) (name : Token F) (value : Literal F) :
    Except (RuntimeError F) (Environment F) :=
  match scopesAssign env.scopes name.lexeme value with
  | some l => .ok ⟨l⟩
  | Option.none => .error (undefinedVarErr name)

/-- Models `is_truthy` (interpreter.rs): `Boolean(false)` and `None` are falsy,
everything else is truthy. -/
def isTruthy {F : Type} : Literal F → Bool
  | .boolean b => b
  | .none => false
  | _ => true

/-- The native number operations the interpreter forwards to. In the Rust
source these are the built-in `f64` operators (`+ - * /` and the comparison
operators, including `==`/`!=` with IEEE-754 semantics); the evaluator applies
them directly, with no checks of its own. -/
structure NumOps (F : Type) where
  add : F → F → F
  sub : F → F → F
  mul : F → F → F
  div : F → F → F
  neg : F → F
  gt : F → F → Bool
  ge : F → F → Bool
  lt : F → F → Bool
  le : F → F → Bool
  eq : F → F → Bool
  ne : F → F → Bool

/-- Structural equality of values (the derived `PartialEq` on `Literal`);
number payloads compare with the native `eq`. -/
def litEq {F : Type} (ops : NumOps F) : Literal F → Literal F → Bool
  | .number a, .number b => ops.eq a b
  | .str a, .str b => a = b
  | .boolean a, .boolean b => a = b
  | .ident a, .ident b => a = b
  | .none, .none => true
  | _, _ => false

/-- Models `is_equal` (interpreter.rs): `None` equals only `None`, otherwise
structural comparison. -/
def isEqual {F : Type} (ops : NumOps F) (left right : Literal F) : Bool :=
  match left, right with
  | .none, .none => true
  | .none, _ => false
  | l, r => litEq ops l r

/-- The operand-dispatch of `Interpreter::binary` (interpreter.rs), applied
after both operands have been evaluated. Number pairs forward every supported
operator directly to the native operation (no division-by-zero check); string
pairs support only `+` (concatenation); any other pair supports only
`==`/`!=` via `is_equal`. -/
def binaryOp {F : Type} (ops : NumOps F) (operator : Token F) (left right : Literal F) :
    Except (RuntimeError F) (Literal F) :=
  match left, right with
  | .number l, .number r =>
    match operator.kind with
    | .greater => .ok (.boolean (ops.gt l r))
    | .greaterEqual => .ok (.boolean (ops.ge l r))
    | .less => .ok (.boolean (ops.lt l r))
    | .lessEqual => .ok (.boolean (ops.le l r))
    | .bangEqual => .ok (.boolean (ops.ne l r))
    | .equalEqual => .ok (.boolean (ops.eq l r))
    | .plus => .ok (.number (ops.add l r))
    | .minus => .ok (.number (ops.sub l r))
    | .slash => .ok (.number (ops.div l r))
    | .star => .ok (.number (ops.mul l r))
    | _ => .error ⟨"Unsupported binary operator for numbers", some operator⟩
  | .str l, .str r =>
    match operator.kind with
    | .plus => .ok (.str (l ++ r))
    | _ => .error ⟨"Unsupported binary operator for strings", some operator⟩
  | l, r =>
    match operator.kind with
    | .bangEqual => .ok (.boolean (!isEqual ops l r))
    | .equalEqual => .ok (.boolean (isEqual ops l r))
    | _ => .error ⟨"Unsupported binary operator for these operand types", some operator⟩

/-- Models `Interpreter::evaluate_expr` (interpreter.rs). The environment is threaded
explicitly (it is behind `&mut self` in Rust); on an error the environment
reflects all mutations made before the error. -/
def evalExpr {F : Type} (ops : NumOps F) :
    Expr F → Environment F → Except (RuntimeError F) (Literal F) × Environment F
  | .literal v, env => (.ok v, env)
  | .grouping e, env => evalExpr ops e env
  | .unary op r, env =>
    match evalExpr ops r env with
    | (.error e, env₁) => (.error e, env₁)
    | (.ok v, env₁) =>
      match op.kind with
      | .minus =>
        match v with
        | .number n => (.ok (.number (ops.neg n)), env₁)
        | _ => (.error ⟨"Operand must be a number", some op⟩, env₁)
      | .bang => (.ok (.boolean (!isTruthy v)), env₁)
      | _ => (.error ⟨"Unsupported operator kind", some op⟩, env₁)
  | .binary l op r, env =>
    match evalExpr ops l env with
    | (.error e, env₁) => (.error e, env₁)
    | (.ok lv, env₁) =>
      match evalExpr ops r env₁ with
      | (.error e, env₂) => (.error e, env₂)
      | (.ok rv, env₂) => (binaryOp ops op lv rv, env₂)
  | .var name, env => (env.get name, env)
  | .assign name value, env =>
    match evalExpr ops value env with
    | (.error e, env₁) => (.error e, env₁)
    | (.ok v, env₁) =>
      match env₁.assign name v with
      | .error e => (.error e, env₁)
      | .ok env₂ => (.ok .none, env₂)
  | .logical l op r, env =>
    match evalExpr ops l env with
    | (.error e, env₁) => (.error e, env₁)
    | (.ok lv, env₁) =>
      match op.kind with
      | .andKw => if isTruthy lv then evalExpr ops r env₁ else (.ok lv, env₁)
      | .orKw => if isTruthy lv then (.ok lv, env₁) else evalExpr ops r env₁
      | _ => (.error ⟨"Unsupported logical operator", some op⟩, env₁)

/-- The concrete instantiation of the number carrier used for running concrete
programs: integers standing in for `f64` (every number in the concrete
programs of the claims is integer-valued, where the two agree; the
float-specific behaviour is treated abstractly through `NumOps`). -/
def intOps : NumOps Int where
  add a b := a + b
  sub a b := a - b
  mul a b := a * b
  div a b := a / b
  neg a := -a
  gt a b := decide (b < a)
  ge a b := decide (b ≤ a)
  lt a b := decide (a < b)
  le a b := decide (a ≤ b)
  eq a b := decide (a = b)
  ne a b := decide (a ≠ b)

/-- Modelled from the spec: `Literal::printable` — the printable form a
`Print` statement writes — is absent from the provided sources (only its call
site `value.printable()` in `execute_stmt` appears). Per the spec: a string
value prints without surrounding quote characters, booleans print
`true`/`false`, `None` prints `nil`, and numbers print as their decimal value
(the host prints integer-valued floats without a fractional part, so `1.0`
prints as `1`, which the integer carrier renders directly). -/
def printableI : Literal Int → String
  | .number n => toString n
  | .str s => s
  | .boolean b => if b then "true" else "false"
  | .ident s => s
  | .none => "nil"

/-- How a statement execution can terminate abnormally: a runtime error
(`Err(RuntimeError)` in Rust), a panic (an `unwrap` failure), or fuel
exhaustion (an artifact of the embedding — Rust loops have no fuel; theorems
always supply enough fuel). -/
inductive ExecErr (F : Type) where
  | rtErr (e : RuntimeError F)
  | panicked
  | fuelOut
deriving Repr

/-- Interpreter state: the environment plus everything written so far to the
injected output sink (a byte buffer in the repository's tests — writes to it
never fail). -/
structure IState (F : Type) where
  env : Environment F
  output : String

/-- A request to the statement executor: a single statement
(`execute_stmt`), a statement list (the loops of `interpret`, `block_stmt` and
of a block's body), or the running `while` loop of `while_stmt` with the
already-evaluated condition value. The three are merged into one
fuel-indexed function so the recursion is structural on the fuel. -/
inductive ExecReq (F : Type) where
  | one (s : Stmt F)
  | many (l : List (Stmt F))
  | wloop (condition : Expr F) (body : Stmt F) (condValue : Literal F)

/-- The statement executor (interpreter.rs: `execute_stmt`, `interpret`'s
loop, `if_stmt`, `while_stmt`, `block_stmt`, `var_stmt` and the `Print` arm).
Fuel only bounds the recursion depth; every theorem quantifies over or
supplies sufficient fuel. -/
def execF {F : Type} (ops : NumOps F) (pr : Literal F → String) :
    Nat → ExecReq F → IState F → Except (ExecErr F) Unit × IState F
  | 0, _, st => (.error .fuelOut, st)
  | fuel + 1, req, st =>
    match req with
    | .many [] => (.ok (), st)
    | .many (s :: rest) =>
      match execF ops pr fuel (.one s) st with
      | (.error e, st₁) => (.error e, st₁)
      | (.ok _, st₁) => execF ops pr fuel (.many rest) st₁
    | .wloop c b v =>
      if isTruthy v then
        match execF ops pr fuel (.one b) st with
        | (.error e, st₁) => (.error e, st₁)
        | (.ok _, st₁) =>
          match evalExpr ops c st₁.env with
          | (.error e, env₁) => (.error (.rtErr e), { st₁ with env := env₁ })
          | (.ok v', env₁) => execF ops pr fuel (.wloop c b v') { st₁ with env := env₁ }
      else (.ok (), st)
    | .one (.expr e) =>
      match evalExpr ops e st.env with
      | (.error e₁, env₁) => (.error (.rtErr e₁), { st with env := env₁ })
      | (.ok _, env₁) => (.ok (), { st with env := env₁ })
    | .one (.ifS c t els) =>
      match evalExpr ops c st.env with
      | (.error e₁, env₁) => (.error (.rtErr e₁), { st with env := env₁ })
      | (.ok v, env₁) =>
        if isTruthy v then execF ops pr fuel (.one t) { st with env := env₁ }
        else
          match els with
          | some e => execF ops pr fuel (.one e) { st with env := env₁ }
          | Option.none => (.ok (), { st with env := env₁ })
    | .one (.print e) =>
      match evalExpr ops e st.env with
      | (.error e₁, env₁) => (.error (.rtErr e₁), { st with env := env₁ })
      | (.ok v, env₁) => (.ok (), ⟨env₁, st.output ++ pr v ++ "\n"⟩)
    | .one (.var name init) =>
      match evalExpr ops init st.env with
      | (.error e₁, env₁) => (.error (.rtErr e₁), { st with env := env₁ })
      | (.ok v, env₁) =>
        match env₁.define name.lexeme v with
        | Option.none => (.error .panicked, { st with env := env₁ })
        | some env₂ => (.ok (), { st with env := env₂ })
    | .one (.block stmts) =>
      match execF ops pr fuel (.many stmts) { st with env := st.env.addScope } with
      | (.error e, st₁) => (.error e, st₁)
      | (.ok _, st₁) =>
        match st₁.env.popScope with
        | Option.none => (.error .panicked, st₁)
        | some env₂ => (.ok (), { st₁ with env := env₂ })
    | .one (.whileS c b) =>
      match evalExpr ops c st.env with
      | (.error e₁, env₁) => (.error (.rtErr e₁), { st with env := env₁ })
      | (.ok v, env₁) => execF ops pr fuel (.wloop c b v) { st with env := env₁ }

/-- Models `Interpreter::execute_stmt` on one statement. -/
def execStmt {F : Type} (ops : NumOps F) (pr : Literal F → String) (fuel : Nat)
    (s : Stmt F) (st : IState F) : Except (ExecErr F) Unit × IState F :=
  execF ops pr fuel (.one s) st

/-- Models `Interpreter::interpret`: execute the statements in order. -/
def interpret {F : Type} (ops : NumOps F) (pr : Literal F → String) (fuel : Nat)
    (stmts : List (Stmt F)) (st : IState F) : Except (ExecErr F) Unit × IState F :=
  execF ops pr fuel (.many stmts) st

/-- The error-reporter line `report(line, location, message)` produces
(rlox.rs); `RLox::error`-style scan errors pass an empty location. -/
def reportStr (line : Nat) (location message : String) : String :=
  "[line " ++ toString line ++ "] Error " ++ location ++ " : " ++ message

/-- Models `error_line` / `RLox::error`: report with an empty location. -/
def errorLineStr (line : Nat) (message : String) : String :=
  reportStr line "" message

/-- Models `error_token`: report at the token's position. -/
def errorTokenStr {F : Type} (t : Token F) (message : String) : String :=
  if t.kind = .eof then reportStr t.line " at end" message
  else reportStr t.line (" at \x27" ++ t.lexeme ++ "\x27") message

/-- Scanner state (scanner.rs, struct `Scanner`). The source is a character
list; positions count characters (the Rust code mixes byte slicing with
`chars()`, which coincide on the ASCII sources all claims use). `reports`
collects every line the error reporter printed. -/
structure SState where
  source : List Char
  start : Nat
  current : Nat
  line : Nat
  tokens : List (Token Int)
  errors : List String
  reports : List String
deriving Repr

/-- Outcome of a scanner step: normal continuation, a panic (a failed
`unwrap`), or fuel exhaustion (an embedding artifact; the fixed fuel
`source.length + 1` always suffices because every loop iteration consumes a
character). The state is carried along even on a panic so that output already
printed (the reports) stays observable. -/
inductive SStep where
  | ok (st : SState)
  | panic (st : SState)
  | fuelOut (st : SState)
deriving Repr

/-- Whether the scanner step ended in a panic. -/
def SStep.isPanic : SStep → Bool
  | .panic _ => true
  | _ => false

/-- The state carried by a scanner step. -/
def SStep.state : SStep → SState
  | .ok st => st
  | .panic st => st
  | .fuelOut st => st

/-- Models `Scanner::is_at_end`. -/
def SState.isAtEnd (st : SState) : Bool :=
  st.source.length ≤ st.current

/-- Models `Scanner::advance`: bump `current`, return the character at the old
position; `Option.none` models the `unwrap` panic past end-of-input. -/
def SState.advance (st : SState) : Option (Char × SState) :=
  match st.source[st.current]? with
  | some c => some (c, { st with current := st.current + 1 })
  | Option.none => Option.none

/-- Models `Scanner::peek` (unwraps: `Option.none` models the panic). -/
def SState.peek (st : SState) : Option Char :=
  st.source[st.current]?

/-- Models `Scanner::peek_next` (unwraps: `Option.none` models the panic). -/
def SState.peekNext (st : SState) : Option Char :=
  st.source[st.current + 1]?

/-- Models `Scanner::char_match` (does not advance). -/
def SState.charMatch (expected : Char) (st : SState) : Bool :=
  if st.isAtEnd then false
  else
    match st.source[st.current]? with
    | some c => c = expected
    | Option.none => false

/-- The exact source slice `source[a..b]` as a string. -/
def sliceLex (source : List Char) (a b : Nat) : String :=
  String.mk ((source.drop a).take (b - a))

/-- Models `Scanner::add_token`. -/
def addToken (kind : TokenKind) (lit : Literal Int) (st : SState) : SState :=
  { st with tokens := st.tokens ++ [⟨kind, sliceLex st.source st.start st.current, lit, st.line⟩] }

/-- Add a token whose literal payload is the lexeme slice itself (the pattern
used for all operator and punctuation tokens). -/
def addSimple (kind : TokenKind) (st : SState) : SStep :=
  .ok (addToken kind (.str (sliceLex st.source st.start st.current)) st)

/-- Models `Scanner::is_digit` / `is_alpha` / `is_alpha_numeric`. -/
def isAlphaChar (c : Char) : Bool := c.isAlpha || c = '_'

/-- ASCII letter, digit or underscore. -/
def isAlphaNumericChar (c : Char) : Bool := isAlphaChar c || c.isDigit

/-- The loop inside `Scanner::string`: consume characters until end-of-input
or a closing quote, counting newlines. -/
def stringLoop : Nat → SState → SStep
  | 0, st => .fuelOut st
  | fuel + 1, st =>
    if st.isAtEnd then .ok st
    else
      match st.peek with
      | Option.none => .panic st
      | some c =>
        if c = '\"' then .ok st
        else
          let st₁ := if c = '\n' then { st with line := st.line + 1 } else st
          match st₁.advance with
          | Option.none => .panic st₁
          | some (_, st₂) => stringLoop fuel st₂

/-- Models `Scanner::string`: after the loop, report "Unterminated string." when at
end-of-input, then unconditionally `advance` (whose unwrap panics at
end-of-input) and emit the string token. -/
def stringFn (st : SState) : SStep :=
  match stringLoop (st.source.length + 1) st with
  | .ok st₁ =>
    let st₂ :=
      if st₁.isAtEnd then
        { st₁ with reports := st₁.reports ++ [errorLineStr st₁.line "Unterminated string."] }
      else st₁
    match st₂.advance with
    | Option.none => .panic st₂
    | some (_, st₃) =>
      .ok (addToken .string (.str (sliceLex st₃.source (st₃.start + 1) (st₃.current - 1))) st₃)
  | s => s

/-- The digit-consuming loop of `Scanner::number`. -/
def digitLoop : Nat → SState → SStep
  | 0, st => .fuelOut st
  | fuel + 1, st =>
    if st.isAtEnd then .ok st
    else
      match st.peek with
      | Option.none => .panic st
      | some c =>
        if c.isDigit then
          match st.advance with
          | Option.none => .panic st
          | some (_, st₁) => digitLoop fuel st₁
        else .ok st

/-- Digits to a natural number. -/
def digitsToNat (l : List Char) : Nat :=
  l.foldl (fun acc c => 10 * acc + (c.toNat - 48)) 0

/-- The numeric value of a lexeme `digits[.digits]` (models
`str::parse::<f64>` on the exact lexemes `number` produces, at the integer
carrier; exact for the integer-valued lexemes every claim exercises — a
non-empty fractional part would need the real-number carrier). -/
def parseNum (l : List Char) : Int :=
  let ip := l.takeWhile (fun c => c != '.')
  let fp := (l.dropWhile (fun c => c != '.')).drop 1
  (digitsToNat ip : Int) + (digitsToNat fp : Int) / (10 ^ fp.length : Int)

/-- Emit the number token for `source[start..current]`. -/
def numberFinish (st : SState) : SStep :=
  .ok (addToken .number (.number (parseNum ((st.source.drop st.start).take (st.current - st.start)))) st)

/-- Models `Scanner::number`: digits, then a fractional part only when a `.` is
followed by a digit. The check `is_digit(peek_next)` unwraps `peek_next`,
which panics when the `.` is the last character of the source. -/
def numberFn (st : SState) : SStep :=
  match digitLoop (st.source.length + 1) st with
  | .ok st₁ =>
    if st₁.isAtEnd then numberFinish st₁
    else
      match st₁.peek with
      | Option.none => .panic st₁
      | some c =>
        if c = '.' then
          match st₁.peekNext with
          | Option.none => .panic st₁
          | some c₂ =>
            if c₂.isDigit then
              match st₁.advance with
              | Option.none => .panic st₁
              | some (_, st₂) =>
                match digitLoop (st₂.source.length + 1) st₂ with
                | .ok st₃ => numberFinish st₃
                | s => s
            else numberFinish st₁
        else numberFinish st₁
  | s => s

/-- The fixed keyword table (token.rs, `KEYWORD_MAP`). -/
def keywordLookup : String → Option TokenKind
  | "and" => some .andKw
  | "class" => some .classKw
  | "else" => some .elseKw
  | "false" => some .falseKw
  | "fun" => some .funKw
  | "for" => some .forKw
  | "if" => some .ifKw
  | "nil" => some .nilKw
  | "or" => some .orKw
  | "print" => some .printKw
  | "return" => some .returnKw
  | "super" => some .superKw
  | "this" => some .thisKw
  | "true" => some .trueKw
  | "var" => some .varKw
  | "while" => some .whileKw
  | _ => Option.none

/-- The identifier-consuming loop of `Scanner::identifier`. -/
def identLoop : Nat → SState → SStep
  | 0, st => .fuelOut st
  | fuel + 1, st =>
    if st.isAtEnd then .ok st
    else
      match st.peek with
      | Option.none => .panic st
      | some c =>
        if isAlphaNumericChar c then
          match st.advance with
          | Option.none => .panic st
          | some (_, st₁) => identLoop fuel st₁
        else .ok st

/-- Models `Scanner::identifier`: consume the word, then consult the keyword table. -/
def identFn (st : SState) : SStep :=
  match identLoop (st.source.length + 1) st with
  | .ok st₁ =>
    let text := sliceLex st₁.source st₁.start st₁.current
    match keywordLookup text with
    | some k => .ok (addToken k (.str text) st₁)
    | Option.none => .ok (addToken .identifier (.str text) st₁)
  | s => s

/-- The `//` comment loop: consume to end-of-line. -/
def commentLoop : Nat → SState → SStep
  | 0, st => .fuelOut st
  | fuel + 1, st =>
    if st.isAtEnd then .ok st
    else
      match st.peek with
      | Option.none => .panic st
      | some c =>
        if c = '\n' then .ok st
        else
          match st.advance with
          | Option.none => .panic st
          | some (_, st₁) => commentLoop fuel st₁

/-- Models `Scanner::scan_token`: dispatch on the next character. -/
def scanToken (st : SState) : SStep :=
  match st.advance with
  | Option.none => .panic st
  | some (c, st₁) =>
    if c = '(' then addSimple .leftParen st₁
    else if c = ')' then addSimple .rightParen st₁
    else if c = '\x7b' then addSimple .leftBrace st₁
    else if c = '\x7d' then addSimple .rightBrace st₁
    else if c = ',' then addSimple .comma st₁
    else if c = '.' then addSimple .dot st₁
    else if c = '-' then addSimple .minus st₁
    else if c = '+' then addSimple .plus st₁
    else if c = ';' then addSimple .semicolon st₁
    else if c = '*' then addSimple .star st₁
    else if c = '!' then
      if SState.charMatch '=' st₁ then
        match st₁.advance with
        | Option.none => .panic st₁
        | some (_, st₂) => addSimple .bangEqual st₂
      else addSimple .bang st₁
    else if c = '=' then
      if SState.charMatch '=' st₁ then
        match st₁.advance with
        | Option.none => .panic st₁
        | some (_, st₂) => addSimple .equalEqual st₂
      else addSimple .equal st₁
    else if c = '<' then
      if SState.charMatch '=' st₁ then
        match st₁.advance with
        | Option.none => .panic st₁
        | some (_, st₂) => addSimple .lessEqual st₂
      else addSimple .less st₁
    else if c = '>' then
      if SState.charMatch '=' st₁ then
        match st₁.advance with
        | Option.none => .panic st₁
        | some (_, st₂) => addSimple .greaterEqual st₂
      else addSimple .greater st₁
    else if c = '/' then
      if SState.charMatch '/' st₁ then commentLoop (st₁.source.length + 1) st₁
      else addSimple .slash st₁
    else if c = ' ' || c = '\r' || c = '\t' then .ok st₁
    else if c = '\n' then .ok { st₁ with line := st₁.line + 1 }
    else if c = '\"' then stringFn st₁
    else if c.isDigit then numberFn st₁
    else if isAlphaChar c then identFn st₁
    else
      .ok { st₁ with
            errors := st₁.errors ++ ["Unexpected character at line " ++ toString st₁.line],
            reports := st₁.reports ++ [errorLineStr st₁.line "Unexpected character"] }

/-- The loop of `Scanner::scan_tokens`: set `start := current`, scan one
token, repeat until end-of-input. -/
def scanLoop : Nat → SState → SStep
  | 0, st => .fuelOut st
  | fuel + 1, st =>
    if st.isAtEnd then .ok st
    else
      match scanToken { st with start := st.current } with
      | .ok st₁ => scanLoop fuel st₁
      | s => s

/-- Models `Scanner::scan_tokens` on a whole source: run the loop, then append the
synthetic EOF token. -/
def scanTokens (source : String) : SStep :=
  match scanLoop (source.data.length + 1) ⟨source.data, 0, 0, 1, [], [], []⟩ with
  | .ok st => .ok { st with tokens := st.tokens ++ [⟨.eof, "", .none, st.line⟩] }
  | s => s

/-- Parser state (parser.rs, struct `Parser`): the token list, the index of
the current token, and every line printed through the error reporter. -/
structure PState where
  tokens : List (Token Int)
  current : Nat
  reports : List String
deriving Repr

/-- How a parser computation fails: an `Err` result (anyhow error with its
message), a panic (a failed `unwrap`, an out-of-bounds index or an explicit
`panic!`), or fuel exhaustion (an embedding artifact). -/
inductive PFail where
  | err (msg : String)
  | panicked
  | fuelOut
deriving DecidableEq, Repr

/-- Models `Parser::peek`; `Option.none` models the out-of-bounds panic. -/
def peekT (s : PState) : Option (Token Int) :=
  s.tokens[s.current]?

/-- Models `Parser::previous`; `Option.none` models the out-of-bounds/underflow
panic. -/
def previousT (s : PState) : Option (Token Int) :=
  if s.current = 0 then Option.none else s.tokens[s.current - 1]?

/-- Models `Parser::check`: `false` at EOF, else compare the current token's kind.
`Option.none` models the panic of the underlying `peek`. -/
def check (kind : TokenKind) (s : PState) : Option Bool :=
  (peekT s).map fun t => if t.kind = .eof then false else if t.kind = kind then true else false

/-- Models `Parser::advance`: step past the current token unless at EOF, then return
`previous()`. -/
def advanceP (s : PState) : Option (Token Int × PState) :=
  match peekT s with
  | Option.none => Option.none
  | some t =>
    let s₁ := if t.kind = .eof then s else { s with current := s.current + 1 }
    match previousT s₁ with
    | Option.none => Option.none
    | some p => some (p, s₁)

/-- Models `Parser::match_kinds`: try each kind in order, advancing on the first
hit. -/
def matchKinds (kinds : List TokenKind) (s : PState) : Option (Bool × PState) :=
  match kinds with
  | [] => some (false, s)
  | k :: rest =>
    match check k s with
    | Option.none => Option.none
    | some true => (advanceP s).map fun p => (true, p.2)
    | some false => matchKinds rest s

/-- Models `Parser::consume`: advance over the expected kind, otherwise report via
`error_token` and return the error. -/
def consume (kind : TokenKind) (msg : String) (s : PState) :
    Except PFail (Token Int) × PState :=
  match check kind s with
  | Option.none => (.error .panicked, s)
  | some true =>
    match advanceP s with
    | Option.none => (.error .panicked, s)
    | some (t, s₁) => (.ok t, s₁)
  | some false =>
    match peekT s with
    | Option.none => (.error .panicked, s)
    | some t => (.error (.err msg), { s with reports := s.reports ++ [errorTokenStr t msg] })

/-- The loop of `Parser::synchronize`: discard tokens until just past a `;`
or in front of a statement-starting keyword. -/
def syncLoop : Nat → PState → Except PFail Unit × PState
  | 0, s => (.error .fuelOut, s)
  | fuel + 1, s =>
    match peekT s with
    | Option.none => (.error .panicked, s)
    | some t =>
      if t.kind = .eof then (.ok (), s)
      else
        match previousT s with
        | Option.none => (.error .panicked, s)
        | some p =>
          if p.kind = .semicolon then (.ok (), s)
          else
            match t.kind with
            | .classKw | .funKw | .varKw | .forKw | .ifKw | .whileKw | .printKw | .returnKw =>
              (.ok (), s)
            | _ =>
              match advanceP s with
              | Option.none => (.error .panicked, s)
              | some (_, s₁) => syncLoop fuel s₁

/-- Models `Parser::synchronize`: discard the offending token, then run the loop. -/
def synchronizeF (fuel : Nat) (s : PState) : Except PFail Unit × PState :=
  match advanceP s with
  | Option.none => (.error .panicked, s)
  | some (_, s₁) => syncLoop fuel s₁

/-- The result variants of the recursive-descent entry points. -/
inductive POut where
  | exprO (e : Expr Int)
  | stmtO (s : Stmt Int)
  | stmtsO (l : List (Stmt Int))
deriving Repr

/-- A request to the recursive-descent parser: one constructor per method of
`Parser` (plus one per internal `while` loop, carrying the left-folded
expression or accumulated statements). All methods are merged into one
fuel-indexed function so the mutual recursion is structural on the fuel. -/
inductive PReq where
  | prog
  | decl
  | varDecl
  | stmtR
  | ifStmtR
  | forStmtR
  | whileStmtR
  | blockStmtR
  | blockLoop
  | printStmtR
  | exprStmtR
  | expression
  | assignment
  | orR
  | orLoop (left : Expr Int)
  | andR
  | andLoop (left : Expr Int)
  | equality
  | eqLoop (left : Expr Int)
  | comparison
  | compLoop (left : Expr Int)
  | term
  | termLoop (left : Expr Int)
  | factor
  | factorLoop (left : Expr Int)
  | unaryR
  | primary

/-- The recursive-descent parser (parser.rs), one case per method. Results
that are impossible by construction (a statement entry point returning an
expression, say) map to `.panicked`; no theorem relies on those branches. -/
def parserF : Nat → PReq → PState → Except PFail POut × PState
  | 0, _, s => (.error .fuelOut, s)
  | fuel + 1, req, s =>
    match req with
    | .prog =>
      match peekT s with
      | Option.none => (.error .panicked, s)
      | some t =>
        if t.kind = .eof then (.ok (.stmtsO []), s)
        else
          match parserF fuel .decl s with
          | (.ok (.stmtO d), s₁) =>
            match parserF fuel .prog s₁ with
            | (.ok (.stmtsO ds), s₂) => (.ok (.stmtsO (d :: ds)), s₂)
            | (.error e, s₂) => (.error e, s₂)
            | (_, s₂) => (.error .panicked, s₂)
          | (.error e, s₁) => (.error e, s₁)
          | (_, s₁) => (.error .panicked, s₁)
    | .decl =>
      match matchKinds [.varKw] s with
      | Option.none => (.error .panicked, s)
      | some (isVar, s₁) =>
        match parserF fuel (if isVar then .varDecl else .stmtR) s₁ with
        | (.ok d, s₂) => (.ok d, s₂)
        | (.error (.err m), s₂) =>
          match synchronizeF fuel s₂ with
          | (.ok _, s₃) => (.error (.err m), s₃)
          | (.error x, s₃) => (.error x, s₃)
        | (.error x, s₂) => (.error x, s₂)
    | .varDecl =>
      match consume .identifier ("Expect variable name.") s with
      | (.error e, s₁) => (.error e, s₁)
      | (.ok name, s₁) =>
        let finish := fun (init : Expr Int) (s₂ : PState) =>
          match consume .semicolon ("Expect \x27;\x27 after variable declaration.") s₂ with
          | (.ok _, s₃) => ((.ok (.stmtO (.var name init)) : Except PFail POut), s₃)
          | (.error e, s₃) => (.error e, s₃)
        match matchKinds [.equal] s₁ with
        | Option.none => (.error .panicked, s₁)
        | some (true, s₂) =>
          match parserF fuel .expression s₂ with
          | (.ok (.exprO init), s₃) => finish init s₃
          | (.error e, s₃) => (.error e, s₃)
          | (_, s₃) => (.error .panicked, s₃)
        | some (false, s₂) => finish (.literal .none) s₂
    | .stmtR =>
      match matchKinds [.ifKw] s with
      | Option.none => (.error .panicked, s)
      | some (true, s₁) => parserF fuel .ifStmtR s₁
      | some (false, s₁) =>
        match matchKinds [.printKw] s₁ with
        | Option.none => (.error .panicked, s₁)
        | some (true, s₂) => parserF fuel .printStmtR s₂
        | some (false, s₂) =>
          match matchKinds [.leftBrace] s₂ with
          | Option.none => (.error .panicked, s₂)
          | some (true, s₃) => parserF fuel .blockStmtR s₃
          | some (false, s₃) =>
            match matchKinds [.whileKw] s₃ with
            | Option.none => (.error .panicked, s₃)
            | some (true, s₄) => parserF fuel .whileStmtR s₄
            | some (false, s₄) =>
              match matchKinds [.forKw] s₄ with
              | Option.none => (.error .panicked, s₄)
              | some (true, s₅) => parserF fuel .forStmtR s₅
              | some (false, s₅) => parserF fuel .exprStmtR s₅
    | .ifStmtR =>
      match consume .leftParen ("Expect \x27(\x27 after \x27if\x27.") s with
      | (.error e, s₁) => (.error e, s₁)
      | (.ok _, s₁) =>
        match parserF fuel .expression s₁ with
        | (.error e, s₂) => (.error e, s₂)
        | (.ok (.exprO condition), s₂) =>
          match consume .rightParen ("Expect \x27)\x27 after if condition.") s₂ with
          | (.error e, s₃) => (.error e, s₃)
          | (.ok _, s₃) =>
            match parserF fuel .stmtR s₃ with
            | (.error e, s₄) => (.error e, s₄)
            | (.ok (.stmtO thenBranch), s₄) =>
              match matchKinds [.elseKw] s₄ with
              | Option.none => (.error .panicked, s₄)
              | some (true, s₅) =>
                match parserF fuel .stmtR s₅ with
                | (.error e, s₆) => (.error e, s₆)
                | (.ok (.stmtO elseBranch), s₆) =>
                  (.ok (.stmtO (.ifS condition thenBranch (some elseBranch))), s₆)
                | (_, s₆) => (.error .panicked, s₆)
              | some (false, s₅) =>
                (.ok (.stmtO (.ifS condition thenBranch Option.none)), s₅)
            | (_, s₄) => (.error .panicked, s₄)
        | (_, s₂) => (.error .panicked, s₂)
    | .forStmtR =>
      match consume .leftParen ("Expect \x27(\x27 after \x27for\x27.") s with
      | (.error e, s₁) => (.error e, s₁)
      | (.ok _, s₁) =>
        let afterInit := fun (initializer : Option (Stmt Int)) (s₂ : PState) =>
          (match check .semicolon s₂ with
          | Option.none => ((.error .panicked : Except PFail POut), s₂)
          | some noCond =>
            let withCond := fun (condition : Expr Int) (s₃ : PState) =>
              match consume .semicolon ("Expect \x27;\x27 after loop condition.") s₃ with
              | (.error e, s₄) => ((.error e : Except PFail POut), s₄)
              | (.ok _, s₄) =>
                let withInc := fun (increment : Option (Expr Int)) (s₅ : PState) =>
                  match consume .rightParen ("Expect \x27)\x27 after for clauses.") s₅ with
                  | (.error e, s₆) => ((.error e : Except PFail POut), s₆)
                  | (.ok _, s₆) =>
                    match parserF fuel .stmtR s₆ with
                    | (.error e, s₇) => (.error e, s₇)
                    | (.ok (.stmtO body), s₇) =>
                      let body₁ :=
                        match increment with
                        | some inc => Stmt.block [body, .expr inc]
                        | Option.none => body
                      let body₂ := Stmt.whileS condition body₁
                      let body₃ :=
                        match initializer with
                        | some init => Stmt.block [init, body₂]
                        | Option.none => body₂
                      (.ok (.stmtO body₃), s₇)
                    | (_, s₇) => (.error .panicked, s₇)
                match check .rightParen s₄ with
                | Option.none => (.error .panicked, s₄)
                | some true => withInc Option.none s₄
                | some false =>
                  match parserF fuel .expression s₄ with
                  | (.error e, s₅) => (.error e, s₅)
                  | (.ok (.exprO inc), s₅) => withInc (some inc) s₅
                  | (_, s₅) => (.error .panicked, s₅)
            if noCond then withCond (.literal (.boolean true)) s₂
            else
              match parserF fuel .expression s₂ with
              | (.error e, s₃) => (.error e, s₃)
              | (.ok (.exprO condition), s₃) => withCond condition s₃
              | (_, s₃) => (.error .panicked, s₃))
        match matchKinds [.semicolon] s₁ with
        | Option.none => (.error .panicked, s₁)
        | some (true, s₂) => afterInit Option.none s₂
        | some (false, s₂) =>
          match matchKinds [.varKw] s₂ with
          | Option.none => (.error .panicked, s₂)
          | some (true, s₃) =>
            match parserF fuel .varDecl s₃ with
            | (.error e, s₄) => (.error e, s₄)
            | (.ok (.stmtO init), s₄) => afterInit (some init) s₄
            | (_, s₄) => (.error .panicked, s₄)
          | some (false, s₃) =>
            match parserF fuel .exprStmtR s₃ with
            | (.error e, s₄) => (.error e, s₄)
            | (.ok (.stmtO init), s₄) => afterInit (some init) s₄
            | (_, s₄) => (.error .panicked, s₄)
    | .whileStmtR =>
      match consume .leftParen ("Expect \x27(\x27 after \x27while\x27.") s with
      | (.error e, s₁) => (.error e, s₁)
      | (.ok _, s₁) =>
        match parserF fuel .expression s₁ with
        | (.error e, s₂) => (.error e, s₂)
        | (.ok (.exprO condition), s₂) =>
          match consume .rightParen ("Expect \x27)\x27 after condition.") s₂ with
          | (.error e, s₃) => (.error e, s₃)
          | (.ok _, s₃) =>
            match parserF fuel .stmtR s₃ with
            | (.error e, s₄) => (.error e, s₄)
            | (.ok (.stmtO body), s₄) => (.ok (.stmtO (.whileS condition body)), s₄)
            | (_, s₄) => (.error .panicked, s₄)
        | (_, s₂) => (.error .panicked, s₂)
    | .blockStmtR =>
      match parserF fuel .blockLoop s with
      | (.error e, s₁) => (.error e, s₁)
      | (.ok (.stmtsO l), s₁) =>
        match consume .rightBrace ("Expect \x27\x7d\x27 after block.") s₁ with
        | (.error e, s₂) => (.error e, s₂)
        | (.ok _, s₂) => (.ok (.stmtO (.block l)), s₂)
      | (_, s₁) => (.error .panicked, s₁)
    | .blockLoop =>
      match check .rightBrace s with
      | Option.none => (.error .panicked, s)
      | some closeFound =>
        match peekT s with
        | Option.none => (.error .panicked, s)
        | some t =>
          if !closeFound && !(t.kind = .eof) then
            match parserF fuel .decl s with
            | (.error e, s₁) => (.error e, s₁)
            | (.ok (.stmtO d), s₁) =>
              match parserF fuel .blockLoop s₁ with
              | (.ok (.stmtsO ds), s₂) => (.ok (.stmtsO (d :: ds)), s₂)
              | (.error e, s₂) => (.error e, s₂)
              | (_, s₂) => (.error .panicked, s₂)
            | (_, s₁) => (.error .panicked, s₁)
          else (.ok (.stmtsO []), s)
    | .printStmtR =>
      match parserF fuel .expression s with
      | (.error e, s₁) => (.error e, s₁)
      | (.ok (.exprO e), s₁) =>
        match consume .semicolon ("Expect \x27;\x27 after expression.") s₁ with
        | (.error e₁, s₂) => (.error e₁, s₂)
        | (.ok _, s₂) => (.ok (.stmtO (.print e)), s₂)
      | (_, s₁) => (.error .panicked, s₁)
    | .exprStmtR =>
      match parserF fuel .expression s with
      | (.error e, s₁) => (.error e, s₁)
      | (.ok (.exprO e), s₁) =>
        match consume .semicolon ("Expect \x27;\x27 after expression statement.") s₁ with
        | (.error e₁, s₂) => (.error e₁, s₂)
        | (.ok _, s₂) => (.ok (.stmtO (.expr e)), s₂)
      | (_, s₁) => (.error .panicked, s₁)
    | .expression => parserF fuel .assignment s
    | .assignment =>
      match parserF fuel .orR s with
      | (.error e, s₁) => (.error e, s₁)
      | (.ok (.exprO e), s₁) =>
        match matchKinds [.equal] s₁ with
        | Option.none => (.error .panicked, s₁)
        | some (true, s₂) =>
          match previousT s₂ with
          | Option.none => (.error .panicked, s₂)
          | some equals =>
            match parserF fuel .assignment s₂ with
            | (.error e₁, s₃) => (.error e₁, s₃)
            | (.ok (.exprO value), s₃) =>
              match e with
              | .var name => (.ok (.exprO (.assign name value)), s₃)
              | _ =>
                (.error (.err "Invalid assignment target."),
                  { s₃ with reports := s₃.reports ++ [errorTokenStr equals "invalid assignment target."] })
            | (_, s₃) => (.error .panicked, s₃)
        | some (false, s₂) => (.ok (.exprO e), s₂)
      | (_, s₁) => (.error .panicked, s₁)
    | .orR =>
      match parserF fuel .andR s with
      | (.error e, s₁) => (.error e, s₁)
      | (.ok (.exprO e), s₁) => parserF fuel (.orLoop e) s₁
      | (_, s₁) => (.error .panicked, s₁)
    | .orLoop left =>
      match matchKinds [.orKw] s with
      | Option.none => (.error .panicked, s)
      | some (false, s₁) => (.ok (.exprO left), s₁)
      | some (true, s₁) =>
        match previousT s₁ with
        | Option.none => (.error .panicked, s₁)
        | some operator =>
          match parserF fuel .andR s₁ with
          | (.error e, s₂) => (.error e, s₂)
          | (.ok (.exprO right), s₂) => parserF fuel (.orLoop (.logical left operator right)) s₂
          | (_, s₂) => (.error .panicked, s₂)
    | .andR =>
      match parserF fuel .equality s with
      | (.error e, s₁) => (.error e, s₁)
      | (.ok (.exprO e), s₁) => parserF fuel (.andLoop e) s₁
      | (_, s₁) => (.error .panicked, s₁)
    | .andLoop left =>
      match matchKinds [.andKw] s with
      | Option.none => (.error .panicked, s)
      | some (false, s₁) => (.ok (.exprO left), s₁)
      | some (true, s₁) =>
        match previousT s₁ with
        | Option.none => (.error .panicked, s₁)
        | some operator =>
          match parserF fuel .equality s₁ with
          | (.error e, s₂) => (.error e, s₂)
          | (.ok (.exprO right), s₂) => parserF fuel (.andLoop (.logical left operator right)) s₂
          | (_, s₂) => (.error .panicked, s₂)
    | .equality =>
      match parserF fuel .comparison s with
      | (.error e, s₁) => (.error e, s₁)
      | (.ok (.exprO e), s₁) => parserF fuel (.eqLoop e) s₁
      | (_, s₁) => (.error .panicked, s₁)
    | .eqLoop left =>
      match matchKinds [.equalEqual, .bangEqual] s with
      | Option.none => (.error .panicked, s)
      | some (false, s₁) => (.ok (.exprO left), s₁)
      | some (true, s₁) =>
        match previousT s₁ with
        | Option.none => (.error .panicked, s₁)
        | some operator =>
          match parserF fuel .comparison s₁ with
          | (.error e, s₂) => (.error e, s₂)
          | (.ok (.exprO right), s₂) => parserF fuel (.eqLoop (.binary left operator right)) s₂
          | (_, s₂) => (.error .panicked, s₂)
    | .comparison =>
      match parserF fuel .term s with
      | (.error e, s₁) => (.error e, s₁)
      | (.ok (.exprO e), s₁) => parserF fuel (.compLoop e) s₁
      | (_, s₁) => (.error .panicked, s₁)
    | .compLoop left =>
      match matchKinds [.greater, .greaterEqual, .less, .lessEqual] s with
      | Option.none => (.error .panicked, s)
      | some (false, s₁) => (.ok (.exprO left), s₁)
      | some (true, s₁) =>
        match previousT s₁ with
        | Option.none => (.error .panicked, s₁)
        | some operator =>
          match parserF fuel .term s₁ with
          | (.error e, s₂) => (.error e, s₂)
          | (.ok (.exprO right), s₂) => parserF fuel (.compLoop (.binary left operator right)) s₂
          | (_, s₂) => (.error .panicked, s₂)
    | .term =>
      match parserF fuel .factor s with
      | (.error e, s₁) => (.error e, s₁)
      | (.ok (.exprO e), s₁) => parserF fuel (.termLoop e) s₁
      | (_, s₁) => (.error .panicked, s₁)
    | .termLoop left =>
      match matchKinds [.minus, .plus] s with
      | Option.none => (.error .panicked, s)
      | some (false, s₁) => (.ok (.exprO left), s₁)
      | some (true, s₁) =>
        match previousT s₁ with
        | Option.none => (.error .panicked, s₁)
        | some operator =>
          match parserF fuel .factor s₁ with
          | (.error e, s₂) => (.error e, s₂)
          | (.ok (.exprO right), s₂) => parserF fuel (.termLoop (.binary left operator right)) s₂
          | (_, s₂) => (.error .panicked, s₂)
    | .factor =>
      match parserF fuel .unaryR s with
      | (.error e, s₁) => (.error e, s₁)
      | (.ok (.exprO e), s₁) => parserF fuel (.factorLoop e) s₁
      | (_, s₁) => (.error .panicked, s₁)
    | .factorLoop left =>
      match matchKinds [.slash, .star] s with
      | Option.none => (.error .panicked, s)
      | some (false, s₁) => (.ok (.exprO left), s₁)
      | some (true, s₁) =>
        match previousT s₁ with
        | Option.none => (.error .panicked, s₁)
        | some operator =>
          match parserF fuel .unaryR s₁ with
          | (.error e, s₂) => (.error e, s₂)
          | (.ok (.exprO right), s₂) => parserF fuel (.factorLoop (.binary left operator right)) s₂
          | (_, s₂) => (.error .panicked, s₂)
    | .unaryR =>
      match matchKinds [.bang, .minus] s with
      | Option.none => (.error .panicked, s)
      | some (true, s₁) =>
        match previousT s₁ with
        | Option.none => (.error .panicked, s₁)
        | some operator =>
          match parserF fuel .unaryR s₁ with
          | (.error e, s₂) => (.error e, s₂)
          | (.ok (.exprO right), s₂) => (.ok (.exprO (.unary operator right)), s₂)
          | (_, s₂) => (.error .panicked, s₂)
      | some (false, s₁) => parserF fuel .primary s₁
    | .primary =>
      match matchKinds [.falseKw] s with
      | Option.none => (.error .panicked, s)
      | some (true, s₁) => (.ok (.exprO (.literal (.boolean false))), s₁)
      | some (false, s₁) =>
        match matchKinds [.trueKw] s₁ with
        | Option.none => (.error .panicked, s₁)
        | some (true, s₂) => (.ok (.exprO (.literal (.boolean true))), s₂)
        | some (false, s₂) =>
          match matchKinds [.nilKw] s₂ with
          | Option.none => (.error .panicked, s₂)
          | some (true, s₃) => (.ok (.exprO (.literal .none)), s₃)
          | some (false, s₃) =>
            match matchKinds [.number, .string] s₃ with
            | Option.none => (.error .panicked, s₃)
            | some (true, s₄) =>
              match previousT s₄ with
              | Option.none => (.error .panicked, s₄)
              | some t =>
                match t.literal with
                | .str v => (.ok (.exprO (.literal (.str v))), s₄)
                | .number n => (.ok (.exprO (.literal (.number n))), s₄)
                | _ => (.error .panicked, s₄)
            | some (false, s₄) =>
              match matchKinds [.leftParen] s₄ with
              | Option.none => (.error .panicked, s₄)
              | some (true, s₅) =>
                match parserF fuel .expression s₅ with
                | (.error e, s₆) => (.error e, s₆)
                | (.ok (.exprO e), s₆) =>
                  match consume .rightParen ("Expect \x27)\x27 after expression.") s₆ with
                  | (.ok _, s₇) => (.ok (.exprO (.grouping e)), s₇)
                  | (.error (.err _), s₇) => (.error .panicked, s₇)
                  | (.error x, s₇) => (.error x, s₇)
                | (_, s₆) => (.error .panicked, s₆)
              | some (false, s₅) =>
                match matchKinds [.identifier] s₅ with
                | Option.none => (.error .panicked, s₅)
                | some (true, s₆) =>
                  match previousT s₆ with
                  | Option.none => (.error .panicked, s₆)
                  | some name => (.ok (.exprO (.var name)), s₆)
                | some (false, s₆) => (.error (.err "Expect expression."), s₆)

/-- Models `Parser::parse` on a fresh parser over the given tokens. -/
def parse (fuel : Nat) (tokens : List (Token Int)) : Except PFail (List (Stmt Int)) × PState :=
  match parserF fuel .prog ⟨tokens, 0, []⟩ with
  | (.ok (.stmtsO l), s) => (.ok l, s)
  | (.error e, s) => (.error e, s)
  | (_, s) => (.error .panicked, s)

/-- Models `Parser::primary` as an expression-returning entry point. -/
def primaryP (fuel : Nat) (s : PState) : Except PFail (Expr Int) × PState :=
  match parserF fuel .primary s with
  | (.ok (.exprO e), s₁) => (.ok e, s₁)
  | (.error e, s₁) => (.error e, s₁)
  | (_, s₁) => (.error .panicked, s₁)

/-- Models `Parser::expression` as an expression-returning entry point. -/
def expressionP (fuel : Nat) (s : PState) : Except PFail (Expr Int) × PState :=
  match parserF fuel .expression s with
  | (.ok (.exprO e), s₁) => (.ok e, s₁)
  | (.error e, s₁) => (.error e, s₁)
  | (_, s₁) => (.error .panicked, s₁)

/-- Outcome of feeding one source unit through scanner, parser and
interpreter (rlox.rs, `RLox::run`, with the output sink captured as in the
repository's integration tests). -/
inductive RunOut where
  | output (s : String)
  | parseFail (e : PFail)
  | runtimeFail (e : ExecErr Int) (partialOutput : String)
  | scanPanic
  | scanFuelOut
deriving Repr

/-- Models `RLox::run` on one source unit with a fresh environment and an empty
output sink. -/
def run (fuel : Nat) (source : String) : RunOut :=
  match scanTokens source with
  | .ok st =>
    match parse fuel st.tokens with
    | (.ok stmts, _) =>
      match execF intOps printableI fuel (.many stmts) ⟨Environment.new, ""⟩ with
      | (.ok _, ist) => .output ist.output
      | (.error e, ist) => .runtimeFail e ist.output
    | (.error e, _) => .parseFail e
  | .panic _ => .scanPanic
  | .fuelOut _ => .scanFuelOut

theorem scopeGet_scopeInsert_self {F : Type} (s : Scope F) (name : String) (v : Literal F) :
    scopeGet (scopeInsert s name v) name = some v := by
  induction s with
  | nil => simp [scopeInsert, scopeGet]
  | cons kv rest ih =>
    obtain ⟨k, w⟩ := kv
    by_cases h : k = name
    · simp [scopeInsert, h, scopeGet]
    · simp [scopeInsert, h, scopeGet, ih]

theorem scopeContains_false_get {F : Type} (s : Scope F) (name : String)
    (h : scopeContains s name = false) : scopeGet s name = Option.none := by
  unfold scopeContains at h
  cases hg : scopeGet s name with
  | none => rfl
  | some v => rw [hg] at h; simp at h

theorem scopesAssign_get {F : Type} (name : String) (v : Literal F) :
    ∀ (l l' : List (Scope F)), scopesAssign l name v = some l' →
      scopesGet l' name = some v := by
  intro l
  induction l with
  | nil => intro l' h; simp [scopesAssign] at h
  | cons s rest ih =>
    intro l' h
    by_cases hc : scopeContains s name
    · simp [scopesAssign, hc] at h
      rw [← h]
      simp [scopesGet, scopeGet_scopeInsert_self]
    · simp [scopesAssign, hc] at h
      cases hrec : scopesAssign rest name v with
      | none => rw [hrec] at h; simp at h
      | some l'' =>
        rw [hrec] at h
        simp at h
        rw [← h]
        simp [scopesGet, scopeContains_false_get s name (by simpa using hc)]
        exact ih l'' hrec

theorem scopesAssign_length {F : Type} (name : String) (v : Literal F) :
    ∀ (l l' : List (Scope F)), scopesAssign l name v = some l' →
      l'.length = l.length := by
  intro l
  induction l with
  | nil => intro l' h; simp [scopesAssign] at h
  | cons s rest ih =>
    intro l' h
    by_cases hc : scopeContains s name
    · simp [scopesAssign, hc] at h
      rw [← h]; simp
    · simp [scopesAssign, hc] at h
      cases hrec : scopesAssign rest name v with
      | none => rw [hrec] at h; simp at h
      | some l'' =>
        rw [hrec] at h
        simp at h
        rw [← h]
        simp [ih l'' hrec]

theorem evalExpr_scopes_length {F : Type} (ops : NumOps F) :
    ∀ (e : Expr F) (env : Environment F),
      ((evalExpr ops e env).2).scopes.length = env.scopes.length := by
  intro e
  induction e with
  | literal v => intro env; rfl
  | grouping e ih => intro env; simp only [evalExpr]; exact ih env
  | unary op r ih =>
    intro env
    have h := ih env
    simp only [evalExpr]
    rcases hval : evalExpr ops r env with ⟨res, env₁⟩
    rw [hval] at h
    cases res with
    | error e => simpa using h
    | ok v =>
      simp only []
      split <;> (try split) <;> simpa using h
  | binary l op r ihl ihr =>
    intro env
    have hl := ihl env
    simp only [evalExpr]
    rcases h1 : evalExpr ops l env with ⟨r1, env₁⟩
    rw [h1] at hl
    cases r1 with
    | error e => simpa using hl
    | ok lv =>
      have hr := ihr env₁
      rcases h2 : evalExpr ops r env₁ with ⟨r2, env₂⟩
      rw [h2] at hr
      simp only []
      rw [h2]
      replace hl : env₁.scopes.length = env.scopes.length := by simpa using hl
      replace hr : env₂.scopes.length = env₁.scopes.length := by simpa using hr
      cases r2 with
      | error e => show env₂.scopes.length = env.scopes.length; omega
      | ok rv => show env₂.scopes.length = env.scopes.length; omega
  | var name => intro env; rfl
  | assign name value ih =>
    intro env
    have h := ih env
    simp only [evalExpr]
    rcases h1 : evalExpr ops value env with ⟨res, env₁⟩
    rw [h1] at h
    cases res with
    | error e => simpa using h
    | ok v =>
      simp only []
      cases ha : env₁.assign name v with
      | error e => simpa using h
      | ok env₂ =>
        unfold Environment.assign at ha
        cases hsa : scopesAssign env₁.scopes name.lexeme v with
        | none => rw [hsa] at ha; simp at ha
        | some l =>
          rw [hsa] at ha
          simp at ha
          have hlen := scopesAssign_length name.lexeme v env₁.scopes l hsa
          replace h : env₁.scopes.length = env.scopes.length := by simpa using h
          subst ha
          simpa using hlen.trans h
  | logical l op r ihl ihr =>
    intro env
    have hl := ihl env
    simp only [evalExpr]
    rcases h1 : evalExpr ops l env with ⟨r1, env₁⟩
    rw [h1] at hl
    cases r1 with
    | error e => simpa using hl
    | ok lv =>
      have hr := ihr env₁
      simp only []
      split <;> (try split) <;> simp_all

/-- C1 (counterexample): with `x` defined, evaluating `x = 5` succeeds but the
result of the whole assignment expression is `nil`, not the assigned value
`5` — refuting "the result value of the whole assignment expression equals
the value that was assigned". -/
theorem assign_expression_result_counterexample :
    (evalExpr intOps
        (.assign ⟨.identifier, "x", .str "x", 1⟩ (.literal (.number 5)))
        ⟨[[("x", Literal.number 0)]]⟩).1 = .ok Literal.none ∧
      (Literal.none : Literal Int) ≠ .number 5 :=
  ⟨rfl, by decide⟩

/-- C1 (amended): for every assignment expression whose value expression
evaluates successfully and whose variable is defined in some scope, evaluation
succeeds and the environment holds the assigned value under the name, but the
result of the whole assignment expression is `Literal.none` (the code returns
`Ok(Literal::None)`), not the assigned value. -/
theorem assign_expression_returns_nil {F : Type} (ops : NumOps F)
    (name : Token F) (value : Expr F) (env env₁ env₂ : Environment F) (v : Literal F)
    (hv : evalExpr ops value env = (.ok v, env₁))
    (ha : env₁.assign name v = .ok env₂) :
    evalExpr ops (.assign name value) env = (.ok .none, env₂) ∧
      env₂.get name = .ok v := by
  constructor
  · simp [evalExpr, hv, ha]
  · unfold Environment.assign at ha
    cases hsa : scopesAssign env₁.scopes name.lexeme v with
    | none => rw [hsa] at ha; simp at ha
    | some l =>
      rw [hsa] at ha
      simp at ha
      unfold Environment.get
      rw [← ha]
      simp [scopesAssign_get name.lexeme v env₁.scopes l hsa]

/-- Witness for C1's amended theorem at a concrete input. -/
theorem assign_expression_returns_nil_witness :
    evalExpr intOps
        (.assign ⟨.identifier, "x", .str "x", 1⟩ (.literal (.number 5)))
        ⟨[[("x", Literal.number 0)]]⟩ =
      (.ok .none, ⟨[[("x", Literal.number 5)]]⟩) ∧
      (⟨[[("x", Literal.number 5)]]⟩ : Environment Int).get ⟨.identifier, "x", .str "x", 1⟩ =
        .ok (.number 5) :=
  assign_expression_returns_nil intOps _ _ _ _ _ _ rfl rfl

/-- C6: logical operators short-circuit on the determining operand and return
its actual value, not a coerced Boolean. With `and`, a non-truthy left value
is returned without the right operand influencing the result, else the result
is the evaluation of the right operand; with `or`, a truthy left value is
returned likewise, else the result is the evaluation of the right operand. -/
theorem logical_operators_short_circuit {F : Type} (ops : NumOps F)
    (andTok orTok : Token F) (hA : andTok.kind = .andKw) (hO : orTok.kind = .orKw)
    (l r : Expr F) (env : Environment F) (v : Literal F) (env₁ : Environment F)
    (h : evalExpr ops l env = (.ok v, env₁)) :
    (isTruthy v = false →
      evalExpr ops (.logical l andTok r) env = (.ok v, env₁) ∧
      evalExpr ops (.logical l orTok r) env = evalExpr ops r env₁) ∧
    (isTruthy v = true →
      evalExpr ops (.logical l andTok r) env = evalExpr ops r env₁ ∧
      evalExpr ops (.logical l orTok r) env = (.ok v, env₁)) := by
  constructor <;> intro htr <;> constructor <;> simp [evalExpr, h, hA, hO, htr]

/-- Witness for C6 at concrete inputs (`nil` is falsy, so `and` returns it and
`or` defers to the right operand). -/
theorem logical_operators_short_circuit_witness :
    evalExpr intOps
        (.logical (.literal .none) ⟨.andKw, "and", .str "and", 1⟩ (.literal (.number 7)))
        Environment.new = (.ok .none, Environment.new) ∧
      evalExpr intOps
        (.logical (.literal .none) ⟨.orKw, "or", .str "or", 1⟩ (.literal (.number 7)))
        Environment.new = evalExpr intOps (.literal (.number 7)) Environment.new :=
  (logical_operators_short_circuit intOps
    ⟨.andKw, "and", .str "and", 1⟩ ⟨.orKw, "or", .str "or", 1⟩ rfl rfl
    (.literal .none) (.literal (.number 7)) Environment.new .none Environment.new rfl).1 rfl

/-- C7: for a pair of `Number` operands and any operator in
`{+,-,*,/,>,>=,<,<=,==,!=}`, the binary dispatch succeeds (no runtime error)
and forwards directly to the corresponding native number operation — the
comparison and equality operators produce Booleans, the arithmetic operators
produce Numbers, and division carries no zero-check, so `a/0` is whatever the
native division yields (infinity/NaN for the host's `f64`), never an error. -/
theorem binary_numeric_ops_forward_native {F : Type} (ops : NumOps F)
    (operator : Token F) (a b : F) :
    (operator.kind = .plus →
      binaryOp ops operator (.number a) (.number b) = .ok (.number (ops.add a b))) ∧
    (operator.kind = .minus →
      binaryOp ops operator (.number a) (.number b) = .ok (.number (ops.sub a b))) ∧
    (operator.kind = .star →
      binaryOp ops operator (.number a) (.number b) = .ok (.number (ops.mul a b))) ∧
    (operator.kind = .slash →
      binaryOp ops operator (.number a) (.number b) = .ok (.number (ops.div a b))) ∧
    (operator.kind = .greater →
      binaryOp ops operator (.number a) (.number b) = .ok (.boolean (ops.gt a b))) ∧
    (operator.kind = .greaterEqual →
      binaryOp ops operator (.number a) (.number b) = .ok (.boolean (ops.ge a b))) ∧
    (operator.kind = .less →
      binaryOp ops operator (.number a) (.number b) = .ok (.boolean (ops.lt a b))) ∧
    (operator.kind = .lessEqual →
      binaryOp ops operator (.number a) (.number b) = .ok (.boolean (ops.le a b))) ∧
    (operator.kind = .equalEqual →
      binaryOp ops operator (.number a) (.number b) = .ok (.boolean (ops.eq a b))) ∧
    (operator.kind = .bangEqual →
      binaryOp ops operator (.number a) (.number b) = .ok (.boolean (ops.ne a b))) :=
  ⟨fun h => by simp [binaryOp, h], fun h => by simp [binaryOp, h],
   fun h => by simp [binaryOp, h], fun h => by simp [binaryOp, h],
   fun h => by simp [binaryOp, h], fun h => by simp [binaryOp, h],
   fun h => by simp [binaryOp, h], fun h => by simp [binaryOp, h],
   fun h => by simp [binaryOp, h], fun h => by simp [binaryOp, h]⟩

/-- Witness for C7 at concrete inputs, including a division by zero that
returns the native quotient instead of an error. -/
theorem binary_numeric_ops_forward_native_witness :
    binaryOp intOps ⟨.plus, "+", .str "+", 1⟩ (.number 3) (.number 4) =
      .ok (.number (intOps.add 3 4)) ∧
    binaryOp intOps ⟨.slash, "/", .str "/", 1⟩ (.number 3) (.number 0) =
      .ok (.number (intOps.div 3 0)) :=
  ⟨(binary_numeric_ops_forward_native intOps ⟨.plus, "+", .str "+", 1⟩ 3 4).1 rfl,
   (binary_numeric_ops_forward_native intOps ⟨.slash, "/", .str "/", 1⟩ 3 0).2.2.2.1 rfl⟩

theorem execF_scopes_length {F : Type} (ops : NumOps F) (pr : Literal F → String) :
    ∀ (fuel : Nat) (req : ExecReq F) (st : IState F),
      st.env.scopes.length ≤ ((execF ops pr fuel req st).2).env.scopes.length ∧
      ((execF ops pr fuel req st).1 = .ok () →
        ((execF ops pr fuel req st).2).env.scopes.length = st.env.scopes.length) := by
  intro fuel
  induction fuel with
  | zero =>
    intro req st
    refine ⟨le_refl _, fun h => ?_⟩
    simp [execF] at h
  | succ fuel ih =>
    intro req st
    cases req with
    | many l =>
      cases l with
      | nil => simp [execF]
      | cons s rest =>
        simp only [execF]
        have h1 := ih (.one s) st
        rcases hs : execF ops pr fuel (.one s) st with ⟨r1, st₁⟩
        rw [hs] at h1
        cases r1 with
        | error e => exact ⟨h1.1, fun h => by simp at h⟩
        | ok u =>
          have h2 := ih (.many rest) st₁
          rcases ht : execF ops pr fuel (.many rest) st₁ with ⟨r2, st₂⟩
          rw [ht] at h2
          refine ⟨?_, ?_⟩
          · show st.env.scopes.length ≤
              (execF ops pr fuel (.many rest) st₁).2.env.scopes.length
            rw [ht]
            exact le_trans h1.1 h2.1
          · show (execF ops pr fuel (.many rest) st₁).1 = .ok () →
              (execF ops pr fuel (.many rest) st₁).2.env.scopes.length = st.env.scopes.length
            rw [ht]
            intro hok
            exact (h2.2 hok).trans (h1.2 rfl)
    | wloop c b v =>
      simp only [execF]
      cases htv : isTruthy v with
      | false => simp
      | true =>
        simp only [if_true]
        have h1 := ih (.one b) st
        split
        next e st₁ heq =>
          rw [heq] at h1
          exact ⟨by simpa using h1.1, fun h => by simp at h⟩
        next u st₁ heq =>
          rw [heq] at h1
          replace h1 : st₁.env.scopes.length = st.env.scopes.length := by
            simpa using h1.2 rfl
          have hev := evalExpr_scopes_length ops c st₁.env
          split
          next e env₁ he =>
            rw [he] at hev
            replace hev : env₁.scopes.length = st₁.env.scopes.length := by simpa using hev
            refine ⟨?_, fun h => by simp at h⟩
            show st.env.scopes.length ≤ env₁.scopes.length
            omega
          next v' env₁ he =>
            rw [he] at hev
            replace hev : env₁.scopes.length = st₁.env.scopes.length := by simpa using hev
            have h2 := ih (.wloop c b v') { env := env₁, output := st₁.output }
            replace h2 :
                env₁.scopes.length ≤
                  (execF ops pr fuel (.wloop c b v')
                    { env := env₁, output := st₁.output }).2.env.scopes.length ∧
                ((execF ops pr fuel (.wloop c b v')
                    { env := env₁, output := st₁.output }).1 = .ok () →
                  (execF ops pr fuel (.wloop c b v')
                    { env := env₁, output := st₁.output }).2.env.scopes.length =
                    env₁.scopes.length) := h2
            refine ⟨?_, fun hok => ?_⟩
            · have := h2.1
              omega
            · have := h2.2 hok
              omega
    | one s =>
      cases s with
      | expr e =>
        simp only [execF]
        have hev := evalExpr_scopes_length ops e st.env
        split
        next e1 env1 he =>
          rw [he] at hev
          replace hev : env1.scopes.length = st.env.scopes.length := by simpa using hev
          refine ⟨?_, fun h => by simp at h⟩
          show st.env.scopes.length ≤ env1.scopes.length
          omega
        next v env1 he =>
          rw [he] at hev
          replace hev : env1.scopes.length = st.env.scopes.length := by simpa using hev
          refine ⟨?_, fun _ => ?_⟩
          · show st.env.scopes.length ≤ env1.scopes.length
            omega
          · show env1.scopes.length = st.env.scopes.length
            omega
      | print e =>
        simp only [execF]
        have hev := evalExpr_scopes_length ops e st.env
        split
        next e1 env1 he =>
          rw [he] at hev
          replace hev : env1.scopes.length = st.env.scopes.length := by simpa using hev
          refine ⟨?_, fun h => by simp at h⟩
          show st.env.scopes.length ≤ env1.scopes.length
          omega
        next v env1 he =>
          rw [he] at hev
          replace hev : env1.scopes.length = st.env.scopes.length := by simpa using hev
          refine ⟨?_, fun _ => ?_⟩
          · show st.env.scopes.length ≤ env1.scopes.length
            omega
          · show env1.scopes.length = st.env.scopes.length
            omega
      | var name init =>
        simp only [execF]
        have hev := evalExpr_scopes_length ops init st.env
        split
        next e1 env1 he =>
          rw [he] at hev
          replace hev : env1.scopes.length = st.env.scopes.length := by simpa using hev
          refine ⟨?_, fun h => by simp at h⟩
          show st.env.scopes.length ≤ env1.scopes.length
          omega
        next v env1 he =>
          rw [he] at hev
          replace hev : env1.scopes.length = st.env.scopes.length := by simpa using hev
          simp only [Environment.define]
          split
          next hsc =>
            refine ⟨?_, fun h => by simp at h⟩
            show st.env.scopes.length ≤ env1.scopes.length
            omega
          next env2 hsc =>
            have hlen : env2.scopes.length = env1.scopes.length := by
              cases hsc1 : env1.scopes with
              | nil => rw [hsc1] at hsc; simp at hsc
              | cons a rest1 =>
                rw [hsc1] at hsc
                simp at hsc
                rw [← hsc]
                simp
            refine ⟨?_, fun _ => ?_⟩
            · show st.env.scopes.length ≤ env2.scopes.length
              omega
            · show env2.scopes.length = st.env.scopes.length
              omega
      | ifS c t els =>
        simp only [execF]
        have hev := evalExpr_scopes_length ops c st.env
        split
        next e1 env1 he =>
          rw [he] at hev
          replace hev : env1.scopes.length = st.env.scopes.length := by simpa using hev
          refine ⟨?_, fun h => by simp at h⟩
          show st.env.scopes.length ≤ env1.scopes.length
          omega
        next v env1 he =>
          rw [he] at hev
          replace hev : env1.scopes.length = st.env.scopes.length := by simpa using hev
          split
          next htv =>
            have h2 := ih (.one t) { env := env1, output := st.output }
            replace h2 :
                env1.scopes.length ≤
                  (execF ops pr fuel (.one t)
                    { env := env1, output := st.output }).2.env.scopes.length ∧
                ((execF ops pr fuel (.one t)
                    { env := env1, output := st.output }).1 = .ok () →
                  (execF ops pr fuel (.one t)
                    { env := env1, output := st.output }).2.env.scopes.length =
                    env1.scopes.length) := h2
            refine ⟨?_, fun hok => ?_⟩
            · have := h2.1
              omega
            · have := h2.2 hok
              omega
          next htv =>
            split
            next e2 =>
              have h2 := ih (.one e2) { env := env1, output := st.output }
              replace h2 :
                  env1.scopes.length ≤
                    (execF ops pr fuel (.one e2)
                      { env := env1, output := st.output }).2.env.scopes.length ∧
                  ((execF ops pr fuel (.one e2)
                      { env := env1, output := st.output }).1 = .ok () →
                    (execF ops pr fuel (.one e2)
                      { env := env1, output := st.output }).2.env.scopes.length =
                      env1.scopes.length) := h2
              refine ⟨?_, fun hok => ?_⟩
              · have := h2.1
                omega
              · have := h2.2 hok
                omega
            next =>
              refine ⟨?_, fun _ => ?_⟩
              · show st.env.scopes.length ≤ env1.scopes.length
                omega
              · show env1.scopes.length = st.env.scopes.length
                omega
      | whileS c b =>
        simp only [execF]
        have hev := evalExpr_scopes_length ops c st.env
        split
        next e1 env1 he =>
          rw [he] at hev
          replace hev : env1.scopes.length = st.env.scopes.length := by simpa using hev
          refine ⟨?_, fun h => by simp at h⟩
          show st.env.scopes.length ≤ env1.scopes.length
          omega
        next v env1 he =>
          rw [he] at hev
          replace hev : env1.scopes.length = st.env.scopes.length := by simpa using hev
          have h2 := ih (.wloop c b v) { env := env1, output := st.output }
          replace h2 :
              env1.scopes.length ≤
                (execF ops pr fuel (.wloop c b v)
                  { env := env1, output := st.output }).2.env.scopes.length ∧
              ((execF ops pr fuel (.wloop c b v)
                  { env := env1, output := st.output }).1 = .ok () →
                (execF ops pr fuel (.wloop c b v)
                  { env := env1, output := st.output }).2.env.scopes.length =
                  env1.scopes.length) := h2
          refine ⟨?_, fun hok => ?_⟩
          · have := h2.1
            omega
          · have := h2.2 hok
            omega
      | block stmts =>
        simp only [execF]
        have hin := ih (.many stmts) { st with env := st.env.addScope }
        replace hin :
            st.env.scopes.length + 1 ≤
              (execF ops pr fuel (.many stmts)
                { env := st.env.addScope, output := st.output }).2.env.scopes.length ∧
            ((execF ops pr fuel (.many stmts)
                { env := st.env.addScope, output := st.output }).1 = .ok () →
              (execF ops pr fuel (.many stmts)
                { env := st.env.addScope, output := st.output }).2.env.scopes.length =
                st.env.scopes.length + 1) := by
          simpa [Environment.addScope] using hin
        split
        next e st1 heq =>
          rw [heq] at hin
          replace hin1 : st.env.scopes.length + 1 ≤ st1.env.scopes.length := by
            simpa using hin.1
          refine ⟨?_, fun h => by simp at h⟩
          show st.env.scopes.length ≤ st1.env.scopes.length
          omega
        next u st1 heq =>
          rw [heq] at hin
          replace hin : st1.env.scopes.length = st.env.scopes.length + 1 := by
            simpa using hin.2 rfl
          simp only [Environment.popScope]
          split
          next hsc =>
            cases hsc1 : st1.env.scopes with
            | nil => rw [hsc1] at hin; simp at hin
            | cons a rest1 => rw [hsc1] at hsc; simp at hsc
          next env2 hsc =>
            have hlen : env2.scopes.length + 1 = st1.env.scopes.length := by
              cases hsc1 : st1.env.scopes with
              | nil => rw [hsc1] at hsc; simp at hsc
              | cons a rest1 =>
                rw [hsc1] at hsc
                simp at hsc
                rw [← hsc]
                simp
            refine ⟨?_, fun _ => ?_⟩
            · show st.env.scopes.length ≤ env2.scopes.length
              omega
            · show env2.scopes.length = st.env.scopes.length
              omega

/-- C5: when a runtime error propagates out of a statement inside a `Block`,
the scope pushed on block entry is not popped — the interpreter returns the
error to the caller with the failing statement's state untouched, and the
scope stack is (at least) one level deeper than before the block; the pop
happens only when every statement of the block completes without error. -/
theorem block_runtime_error_leaks_scope {F : Type} (ops : NumOps F)
    (pr : Literal F → String) (fuel : Nat) (stmts : List (Stmt F)) (st : IState F)
    (e : RuntimeError F) (st₁ : IState F)
    (h : execF ops pr fuel (.many stmts) { st with env := st.env.addScope } =
      (.error (.rtErr e), st₁)) :
    execF ops pr (fuel + 1) (.one (.block stmts)) st = (.error (.rtErr e), st₁) ∧
      st.env.scopes.length + 1 ≤ st₁.env.scopes.length := by
  constructor
  · simp only [execF]
    rw [h]
  · have hmono := (execF_scopes_length ops pr fuel (.many stmts)
      { st with env := st.env.addScope }).1
    rw [h] at hmono
    simp only [Environment.addScope] at hmono
    simpa using hmono

/-- Witness for C5 at a concrete input: a block whose single statement reads
an undefined variable; the error is returned with two scopes on the stack
(the global one plus the leaked block scope). -/
theorem block_runtime_error_leaks_scope_witness :
    execF intOps printableI 6
        (.one (.block [.expr (.var ⟨.identifier, "x", .str "x", 1⟩)]))
        ⟨Environment.new, ""⟩ =
      (.error (.rtErr ⟨"Undefined variable \x27x\x27",
          some ⟨.identifier, "x", .str "x", 1⟩⟩), ⟨⟨[[], []]⟩, ""⟩) ∧
      (⟨Environment.new, ""⟩ : IState Int).env.scopes.length + 1 ≤
        (⟨⟨[[], []]⟩, ""⟩ : IState Int).env.scopes.length :=
  block_runtime_error_leaks_scope intOps printableI 5 _ _ _ _ rfl

theorem stringLoop_no_quote (fuel : Nat) :
    ∀ st : SState, st.source.length - st.current < fuel →
      (∀ c ∈ st.source.drop st.current, c ≠ '\"') →
      ∃ st', stringLoop fuel st = .ok st' ∧
        st'.isAtEnd = true ∧
        st'.source = st.source ∧
        st'.start = st.start ∧
        st'.tokens = st.tokens ∧
        st'.errors = st.errors ∧
        st'.reports = st.reports := by
  induction fuel with
  | zero => intro st h _; omega
  | succ fuel ih =>
    intro st hf hq
    by_cases hend : st.isAtEnd
    · exact ⟨st, by simp [stringLoop, hend], by simpa using hend, rfl, rfl, rfl, rfl, rfl⟩
    · have hlt : st.current < st.source.length := by
        simp [SState.isAtEnd] at hend
        omega
      have hdropeq := List.drop_eq_getElem_cons hlt
      have hpeek : st.peek = some st.source[st.current] :=
        List.getElem?_eq_getElem hlt
      have hcq : st.source[st.current] ≠ '\"' := by
        apply hq
        rw [hdropeq]
        exact List.mem_cons_self _ _
      have hmemtail : ∀ c ∈ st.source.drop (st.current + 1), c ≠ '\"' := by
        intro c hc
        apply hq
        rw [hdropeq]
        exact List.mem_cons_of_mem _ hc
      by_cases hnl : st.source[st.current] = '\n'
      · have step : stringLoop (fuel + 1) st =
            stringLoop fuel { st with line := st.line + 1, current := st.current + 1 } := by
          simp [stringLoop, hend, SState.peek, SState.advance,
            List.getElem?_eq_getElem hlt, hcq, hnl]
        obtain ⟨st', h1, h2, h3, h4, h5, h6, h7⟩ :=
          ih { st with line := st.line + 1, current := st.current + 1 }
            (by simp; omega) (by simpa using hmemtail)
        exact ⟨st', by rw [step]; exact h1, h2, h3, h4, h5, h6, h7⟩
      · have step : stringLoop (fuel + 1) st =
            stringLoop fuel { st with current := st.current + 1 } := by
          simp [stringLoop, hend, SState.peek, SState.advance,
            List.getElem?_eq_getElem hlt, hcq, hnl]
        obtain ⟨st', h1, h2, h3, h4, h5, h6, h7⟩ :=
          ih { st with current := st.current + 1 }
            (by simp; omega) (by simpa using hmemtail)
        exact ⟨st', by rw [step]; exact h1, h2, h3, h4, h5, h6, h7⟩

/-- C3 (counterexample): `scan_tokens` on a source consisting of an
unterminated string literal panics (the `advance` after the error report
unwraps `None` at end-of-input) instead of returning normally with an
EOF-terminated token sequence — refuting "scan_tokens reports an error and
still returns normally ... it does not crash". The error report does happen
before the crash. -/
theorem scan_unterminated_string_counterexample :
    (scanTokens "\"ab").isPanic = true ∧
      (scanTokens "\"ab").state.reports = ["[line 1] Error  : Unterminated string."] :=
  ⟨rfl, rfl⟩

/-- C3 (amended): for every scanner state entering `string()` with no closing
quote anywhere in the remaining input, the scan reports "Unterminated string."
and then panics (the unconditional `advance` unwraps `None` at end-of-input);
no EOF-terminated token sequence is returned. -/
theorem unterminated_string_reports_then_panics (st : SState)
    (h : ∀ c ∈ st.source.drop st.current, c ≠ '\"') :
    (stringFn st).isPanic = true ∧
      (stringFn st).state.reports =
        st.reports ++ [errorLineStr (stringFn st).state.line "Unterminated string."] := by
  obtain ⟨st', hloop, hend, hsrc, _, _, _, hrep⟩ :=
    stringLoop_no_quote (st.source.length + 1) st (by omega) h
  have hnone :
      ({ st' with reports :=
          st'.reports ++ [errorLineStr st'.line "Unterminated string."] } : SState).advance =
        Option.none := by
    simp only [SState.advance]
    have : st'.source.length ≤ st'.current := by simpa [SState.isAtEnd] using hend
    simp [List.getElem?_eq_none this]
  have hfn : stringFn st =
      .panic { st' with reports :=
        st'.reports ++ [errorLineStr st'.line "Unterminated string."] } := by
    simp only [stringFn, hloop, hend, if_true]
    rw [hnone]
  rw [hfn]
  exact ⟨rfl, by simp [SStep.state, hrep]⟩

/-- Witness for C3's amended theorem at the concrete state reached after the
opening quote of the source `"ab`. -/
theorem unterminated_string_reports_then_panics_witness :
    (stringFn ⟨['\"', 'a', 'b'], 0, 1, 1, [], [], []⟩).isPanic = true ∧
      (stringFn ⟨['\"', 'a', 'b'], 0, 1, 1, [], [], []⟩).state.reports =
        [] ++ [errorLineStr (stringFn ⟨['\"', 'a', 'b'], 0, 1, 1, [], [], []⟩).state.line
          "Unterminated string."] :=
  unterminated_string_reports_then_panics ⟨['\"', 'a', 'b'], 0, 1, 1, [], [], []⟩ (by decide)

theorem digitLoop_stops_at_nondigit (ds : List Char) :
    ∀ (fuel : Nat) (st : SState) (c : Char) (rest : List Char),
      (∀ d ∈ ds, d.isDigit = true) →
      st.source.drop st.current = ds ++ c :: rest →
      c.isDigit = false →
      ds.length < fuel →
      digitLoop fuel st = .ok { st with current := st.current + ds.length } := by
  induction ds with
  | nil =>
    intro fuel st c rest _ hdrop hc hf
    cases fuel with
    | zero => omega
    | succ fuel =>
      have hlen := congrArg List.length hdrop
      simp [List.length_drop] at hlen
      have hlt : st.current < st.source.length := by omega
      have hdropeq := List.drop_eq_getElem_cons hlt
      rw [hdropeq, List.nil_append] at hdrop
      injection hdrop with hhead htail
      have hpeek : st.peek = some c := by
        unfold SState.peek
        rw [List.getElem?_eq_getElem hlt, hhead]
      have hnotend : st.isAtEnd = false := by simp [SState.isAtEnd]; omega
      simp [digitLoop, hnotend, hpeek, hc]
  | cons d ds ih =>
    intro fuel st c rest hds hdrop hc hf
    cases fuel with
    | zero => simp at hf
    | succ fuel =>
      have hlen := congrArg List.length hdrop
      simp [List.length_drop] at hlen
      have hlt : st.current < st.source.length := by omega
      have hdropeq := List.drop_eq_getElem_cons hlt
      rw [hdropeq, List.cons_append] at hdrop
      injection hdrop with hhead htail
      have hpeek : st.peek = some d := by
        unfold SState.peek
        rw [List.getElem?_eq_getElem hlt, hhead]
      have hnotend : st.isAtEnd = false := by simp [SState.isAtEnd]; omega
      have hddig : d.isDigit = true := hds d (List.mem_cons_self _ _)
      have step : digitLoop (fuel + 1) st =
          digitLoop fuel { st with current := st.current + 1 } := by
        simp [digitLoop, hnotend, hpeek, hddig, SState.advance,
          List.getElem?_eq_getElem hlt]
      rw [step, ih fuel { st with current := st.current + 1 } c rest
        (fun d hd => hds d (List.mem_cons_of_mem _ hd)) (by simpa using htail) hc
        (by simpa using Nat.lt_of_succ_lt_succ hf)]
      have : st.current + 1 + ds.length = st.current + (ds.length + 1) := by omega
      simp [this]

/-- C8 (counterexample): scanning the source `123.` panics (`peek_next`
unwraps `None` when the dot is the last character) — refuting "scanning a
source that ends with digits followed by a bare `.` completes the number
token ... and does not crash". -/
theorem scan_trailing_dot_counterexample :
    (scanTokens "123.").isPanic = true :=
  rfl

/-- C8 (amended): inside `number()`, a `.` after the integer digits is
consumed only when at least one digit follows it — when a non-digit character
follows the dot, the number token is completed with `current` stopping before
the dot. But when the source ends immediately after the dot, the check
`is_digit(peek_next)` unwraps `None` and the scan panics instead of
completing the token. -/
theorem number_dot_needs_following_digit (st : SState) (ds : List Char)
    (hds : ∀ d ∈ ds, d.isDigit = true) :
    (st.source.drop st.current = ds ++ ['.'] →
      (numberFn st).isPanic = true) ∧
    (∀ c rest, st.source.drop st.current = ds ++ '.' :: c :: rest →
      c.isDigit = false →
      numberFn st = numberFinish { st with current := st.current + ds.length }) := by
  constructor
  · intro hdrop
    have hlen := congrArg List.length hdrop
    simp [List.length_drop] at hlen
    have hloop := digitLoop_stops_at_nondigit ds (st.source.length + 1) st '.' []
      hds hdrop (by decide) (by omega)
    have hnotend :
        ({ st with current := st.current + ds.length } : SState).isAtEnd = false := by
      simp [SState.isAtEnd]
      omega
    have hpeek : ({ st with current := st.current + ds.length } : SState).peek =
        some '.' := by
      simp only [SState.peek]
      have h1 : st.source[st.current + ds.length]? =
          (st.source.drop st.current)[ds.length]? := by
        rw [List.getElem?_drop]
      rw [h1, hdrop, List.getElem?_append_right (le_refl _)]
      simp
    have hpn : ({ st with current := st.current + ds.length } : SState).peekNext =
        Option.none := by
      simp only [SState.peekNext]
      apply List.getElem?_eq_none
      omega
    simp [numberFn, hloop, hnotend, hpeek, hpn, SStep.isPanic]
  · intro c rest hdrop hc
    have hlen := congrArg List.length hdrop
    simp [List.length_drop] at hlen
    have hloop := digitLoop_stops_at_nondigit ds (st.source.length + 1) st '.'
      (c :: rest) hds hdrop (by decide) (by omega)
    have hnotend :
        ({ st with current := st.current + ds.length } : SState).isAtEnd = false := by
      simp [SState.isAtEnd]
      omega
    have hpeek : ({ st with current := st.current + ds.length } : SState).peek =
        some '.' := by
      simp only [SState.peek]
      have h1 : st.source[st.current + ds.length]? =
          (st.source.drop st.current)[ds.length]? := by
        rw [List.getElem?_drop]
      rw [h1, hdrop, List.getElem?_append_right (le_refl _)]
      simp
    have hpn : ({ st with current := st.current + ds.length } : SState).peekNext =
        some c := by
      simp only [SState.peekNext]
      have h1 : st.source[st.current + ds.length + 1]? =
          (st.source.drop st.current)[ds.length + 1]? := by
        rw [List.getElem?_drop]
        congr 1
      rw [h1, hdrop, List.getElem?_append_right (by omega)]
      simp
    simp [numberFn, hloop, hnotend, hpeek, hpn, hc]

/-- Witness for C8's amended theorem: the state reached inside `number()`
while scanning `123.` panics, and while scanning `12.x` the number token for
`12` is completed without consuming the dot. -/
theorem number_dot_needs_following_digit_witness :
    (numberFn ⟨['1', '2', '3', '.'], 0, 1, 1, [], [], []⟩).isPanic = true ∧
      numberFn ⟨['1', '2', '.', 'x'], 0, 1, 1, [], [], []⟩ =
        numberFinish ⟨['1', '2', '.', 'x'], 0, 1 + 1, 1, [], [], []⟩ :=
  ⟨(number_dot_needs_following_digit ⟨['1', '2', '3', '.'], 0, 1, 1, [], [], []⟩
      ['2', '3'] (by decide)).1 rfl,
   (number_dot_needs_following_digit ⟨['1', '2', '.', 'x'], 0, 1, 1, [], [], []⟩
      ['2'] (by decide)).2 'x' [] rfl rfl⟩

/-- C2 (evaluation at the failing input): parsing the two-statement program
`var 1; var 2;` — two independent syntax errors, one per statement — returns
`Err` right after the first failed declaration, with exactly one reported
error and the parser position still at the second `var` (the second statement
is never parsed, so its error is never reported). The spec's claim that one
parse pass reports both errors does not hold: `parse` propagates the first
declaration's error with `?` even though `declaration` ran `synchronize`. -/
theorem parse_aborts_after_first_syntax_error :
    parse 30 (scanTokens "var 1; var 2;").state.tokens =
      (.error (.err "Expect variable name."),
        ⟨(scanTokens "var 1; var 2;").state.tokens, 3,
          ["[line 1] Error  at \x271\x27 : Expect variable name."]⟩) :=
  rfl

/-- C4: feeding each of `print 1;`, `print "hello";`, `print true;`,
`print nil;` through scanner, parser and interpreter writes exactly `1\n`,
`hello\n`, `true\n`, `nil\n` to the output sink — in particular the string
prints without surrounding quotes. -/
theorem print_statement_outputs :
    run 50 "print 1;" = .output "1\n" ∧
    run 50 ("print " ++ "\"hello\";") = .output "hello\n" ∧
    run 50 "print true;" = .output "true\n" ∧
    run 50 "print nil;" = .output "nil\n" :=
  ⟨rfl, rfl, rfl, rfl⟩

/-- C9: parsing `var IDENT ;` (a variable declaration with no initializer)
produces a `Var` statement whose initializer is the literal nil
(`Literal.none`), and executing that statement defines the variable bound to
nil in the innermost scope. -/
theorem var_decl_without_initializer_nil (f fuel : Nat)
    (varT nameT semiT eofT : Token Int)
    (hv : varT.kind = .varKw) (hn : nameT.kind = .identifier)
    (hs : semiT.kind = .semicolon) (he : eofT.kind = .eof)
    (sc : Scope Int) (rest : List (Scope Int)) (st : IState Int)
    (hscope : st.env.scopes = sc :: rest) :
    parse (f + 1 + 1 + 1) [varT, nameT, semiT, eofT] =
      (.ok [.var nameT (.literal .none)], ⟨[varT, nameT, semiT, eofT], 3, []⟩) ∧
    execF intOps printableI (fuel + 1) (.one (.var nameT (.literal .none))) st =
      (.ok (), ⟨⟨scopeInsert sc nameT.lexeme .none :: rest⟩, st.output⟩) ∧
    scopeGet (scopeInsert sc nameT.lexeme Literal.none) nameT.lexeme =
      some Literal.none := by
  refine ⟨?_, ?_, scopeGet_scopeInsert_self sc nameT.lexeme Literal.none⟩
  · simp [parse, parserF, matchKinds, check, advanceP, previousT, peekT, consume,
      hv, hn, hs, he]
  · simp [execF, evalExpr, Environment.define, hscope]

/-- Witness for C9 at a concrete input (`var x;` with a fresh environment). -/
theorem var_decl_without_initializer_nil_witness :
    parse (0 + 1 + 1 + 1)
        [⟨.varKw, "var", .str "var", 1⟩, ⟨.identifier, "x", .str "x", 1⟩,
          ⟨.semicolon, ";", .str ";", 1⟩, ⟨.eof, "", .none, 1⟩] =
      (.ok [.var ⟨.identifier, "x", .str "x", 1⟩ (.literal .none)],
        ⟨[⟨.varKw, "var", .str "var", 1⟩, ⟨.identifier, "x", .str "x", 1⟩,
          ⟨.semicolon, ";", .str ";", 1⟩, ⟨.eof, "", .none, 1⟩], 3, []⟩) ∧
    execF intOps printableI (0 + 1)
        (.one (.var ⟨.identifier, "x", .str "x", 1⟩ (.literal .none)))
        ⟨Environment.new, ""⟩ =
      (.ok (), ⟨⟨scopeInsert ([] : Scope Int) "x" .none :: []⟩, ""⟩) ∧
    scopeGet (scopeInsert ([] : Scope Int) "x" Literal.none) "x" = some Literal.none :=
  var_decl_without_initializer_nil 0 0 _ _ _ _ rfl rfl rfl rfl [] [] ⟨Environment.new, ""⟩ rfl

/-- C10: in `primary`, when the current token opens a grouping (`(`), the
inner expression parses successfully, and the next token is not the matching
`)`, the parser does not return an `Err`: `consume` reports the error and
returns `Err`, and the `.unwrap()` on that result panics, so the whole parse
terminates abnormally instead of synchronizing. -/
theorem grouping_missing_rparen_panics (f : Nat) (s : PState) (t : Token Int)
    (ht : peekT s = some t) (hk : t.kind = .leftParen)
    (e : Expr Int) (s₁ : PState)
    (hexp : parserF f .expression { s with current := s.current + 1 } =
      (.ok (.exprO e), s₁))
    (hnr : check .rightParen s₁ ≠ some true) :
    (parserF (f + 1) .primary s).1 = .error .panicked := by
  have ht' : s.tokens[s.current]? = some t := ht
  have hcf : check .falseKw s = some false := by simp [check, ht, hk]
  have hct : check .trueKw s = some false := by simp [check, ht, hk]
  have hcn : check .nilKw s = some false := by simp [check, ht, hk]
  have hcnum : check .number s = some false := by simp [check, ht, hk]
  have hcstr : check .string s = some false := by simp [check, ht, hk]
  have hcl : check .leftParen s = some true := by simp [check, ht, hk]
  have hadv : advanceP s = some (t, { s with current := s.current + 1 }) := by
    simp [advanceP, previousT, peekT, ht', hk]
  have hm1 : matchKinds [.falseKw] s = some (false, s) := by simp [matchKinds, hcf]
  have hm2 : matchKinds [.trueKw] s = some (false, s) := by simp [matchKinds, hct]
  have hm3 : matchKinds [.nilKw] s = some (false, s) := by simp [matchKinds, hcn]
  have hm4 : matchKinds [.number, .string] s = some (false, s) := by
    simp [matchKinds, hcnum, hcstr]
  have hm5 : matchKinds [.leftParen] s = some (true, { s with current := s.current + 1 }) := by
    simp [matchKinds, hcl, hadv]
  simp only [parserF, hm1, hm2, hm3, hm4, hm5, hexp]
  cases hc : check .rightParen s₁ with
  | none =>
    have hcon : consume .rightParen ("Expect \x27)\x27 after expression.") s₁ =
        (.error .panicked, s₁) := by
      simp [consume, hc]
    rw [hcon]
  | some b =>
    cases b with
    | true => exact absurd hc hnr
    | false =>
      cases hpk : peekT s₁ with
      | none => simp [check, hpk] at hc
      | some u =>
        have hcon : consume .rightParen ("Expect \x27)\x27 after expression.") s₁ =
            (.error (.err "Expect \x27)\x27 after expression."),
              { s₁ with reports := s₁.reports ++
                [errorTokenStr u ("Expect \x27)\x27 after expression.")] }) := by
          simp [consume, hc, hpk]
        rw [hcon]

/-- Witness for C10 at the concrete token sequence of `(1;`. -/
theorem grouping_missing_rparen_panics_witness :
    (parserF (10 + 1) .primary ⟨(scanTokens "(1;").state.tokens, 0, []⟩).1 =
      .error .panicked :=
  grouping_missing_rparen_panics 10 ⟨(scanTokens "(1;").state.tokens, 0, []⟩
    ⟨.leftParen, "(", .str "(", 1⟩ rfl rfl
    (.literal (.number 1)) ⟨(scanTokens "(1;").state.tokens, 2, []⟩ rfl
    (by decide)

end RLox
